import Mathlib

/-!
Verification development for the two converter scripts of the
GamingDebugged/starkiller repository:

* `src/Assets/_Temp/excel_to_csv.py` (the SheetSplitter): `clean_filename`,
  `convert_excel_to_csv` and its `__main__` entry point;
* `src/Assets/convert_to_excel.py` (the CatalogMerger): `convert_csv_to_excel`.

The embedding models tables as lists of rows of `Option String` cells
(`none` models a pandas NaN / missing value), workbooks as lists of named
sheets, and the filesystem side effects of a run as the list of
(filename, table) writes it performs, in order.
-/

namespace Starkiller

/-- A cell value: `none` models a missing value (pandas `NaN`), `some s` a
string value. -/
abbrev Cell := Option String

/-- A row of a table, positionally aligned with the table's header. -/
abbrev Row := List Cell

/-- An in-memory table (pandas `DataFrame`): a header of column names and a
list of data rows. -/
structure Table where
  header : List String
  rows : List Row
deriving DecidableEq, Repr

/-- One named sheet of a workbook. -/
structure Sheet where
  name : String
  table : Table
deriving DecidableEq, Repr

/-- A workbook: an ordered collection of named sheets. -/
structure Workbook where
  sheets : List Sheet
deriving DecidableEq, Repr

/-! ### Python string primitives

`pyReplaceFuel` embeds Python's `str.replace(old, new)`: scan left to right,
and at each position either consume a full occurrence of the pattern and
emit the replacement, or emit one character and advance.  The fuel argument
(instantiated with the input length) only makes the recursion structural;
each step consumes at least one input character when the pattern is
non-empty. -/

def pyReplaceFuel (p r : List Char) : Nat → List Char → List Char
  | 0, l => l
  | _ + 1, [] => []
  | fuel + 1, c :: cs =>
    if !p.isEmpty && p.isPrefixOf (c :: cs) then
      r ++ pyReplaceFuel p r fuel ((c :: cs).drop p.length)
    else
      c :: pyReplaceFuel p r fuel cs

/-- Embedding of Python `s.replace(pattern, replacement)` on strings. -/
def pyReplaceStr (pattern replacement s : String) : String :=
  ⟨pyReplaceFuel pattern.data replacement.data s.data.length s.data⟩

/-- Embedding of Python's regex word-character class `\w` as used by
`re.sub(r'[^\w]', '', ...)` on a `str` in Python 3: `\w` is Unicode-aware
and matches alphanumerics and the underscore.  The model is exact for every
code point below U+0100 (ASCII alphanumerics, `_`, and the Latin-1 letters
`ª µ º À-Ö Ø-ö ø-ÿ`; `×` U+00D7 and `÷` U+00F7 are symbols, not word
characters), which covers every character this development evaluates on. -/
def isWordChar (c : Char) : Bool :=
  c.isAlphanum || c == '_' ||
  (0xC0 ≤ c.toNat && c.toNat ≤ 0xFF && c.toNat != 0xD7 && c.toNat != 0xF7) ||
  c.toNat == 0xAA || c.toNat == 0xB5 || c.toNat == 0xBA

/-- Embedding of `clean_filename` from `excel_to_csv.py`:
`filename.replace(' ', '_')` followed by `re.sub(r'[^\w]', '', cleaned)`. -/
def clean_filename (filename : String) : String :=
  let cleaned := pyReplaceStr " " "_" filename
  ⟨cleaned.data.filter isWordChar⟩

/-! ### Code-point lexicographic order on strings

Python compares `str` values code point by code point; pandas `groupby`
iterates group keys in ascending order of this comparison (its default
`sort=True`).  `charListLe` is that comparison, kept kernel-computable. -/

def charListLe : List Char → List Char → Bool
  | [], _ => true
  | _ :: _, [] => false
  | a :: as, b :: bs =>
    if a.toNat = b.toNat then charListLe as bs else decide (a.toNat < b.toNat)

/-- The `≤` relation on strings induced by `charListLe`. -/
def strLe (a b : String) : Prop := charListLe a.data b.data = true

instance : DecidableRel strLe := fun a b =>
  inferInstanceAs (Decidable (charListLe a.data b.data = true))

/-! ### SheetSplitter (`excel_to_csv.py`) -/

/-- Embedding of `df.fillna('')` applied to one cell: a missing value
becomes the empty string, any present value is kept. -/
def fillnaCell (c : Cell) : Cell := some (c.getD "")

/-- Embedding of `df.fillna('')` on a whole table. -/
def fillna (t : Table) : Table :=
  ⟨t.header, t.rows.map (fun r => r.map fillnaCell)⟩

/-- The ordered list of `(filename, table)` writes performed by the sheet
loop of `convert_excel_to_csv` on workbook `wb`: each sheet is filled with
`fillna('')` and written to `clean_filename(sheet) ++ ".csv"` in the output
folder. -/
def writesOf (wb : Workbook) : List (String × Table) :=
  wb.sheets.map (fun s => (clean_filename s.name ++ ".csv", fillna s.table))

/-- The final content of the output folder at filename `fname` after a list
of writes: the last write to that name wins (a later `to_csv` to the same
path silently overwrites an earlier one). -/
def finalFile (writes : List (String × Table)) (fname : String) : Option Table :=
  ((writes.filter (fun w => w.1 == fname)).map Prod.snd).getLast?

/-- Embedding of `convert_excel_to_csv`'s `(success, message)` result.  The
input is the outcome of the fallible work inside the `try` block (opening
and reading the workbook, creating the folder, writing the files): `.ok wb`
when it raises nothing, `.error e` when some step raises an exception whose
string form is `e`.  The `except Exception` clause makes the function total:
it never propagates the exception. -/
def convert_excel_to_csv (input : Except String Workbook) : Bool × String :=
  match input with
  | .ok wb =>
    (true, "Successfully converted " ++ toString wb.sheets.length ++ " sheets to CSV")
  | .error e => (false, "Error converting Excel to CSV: " ++ e)

/-- Output channel of the entry point's final print. -/
inductive Channel
  | stdout
  | stderr
deriving DecidableEq, Repr

/-- Embedding of the `__main__` block of `excel_to_csv.py`: exit code 0 with
the message on stdout when `success` is true, exit code 1 with the message
on stderr otherwise. -/
def sheetMain (input : Except String Workbook) : Nat × String × Channel :=
  let r := convert_excel_to_csv input
  if r.1 then (0, r.2, Channel.stdout) else (1, r.2, Channel.stderr)

/-! ### CatalogMerger (`convert_to_excel.py`) -/

/-- The `Category` cell of a row, given the index of the `Category` column:
`none` when the cell is missing (NaN) or the row has no such position. -/
def catOf (idx : Nat) (r : Row) : Option String := (r[idx]?).join

/-- The distinct `Category` values of `rows` in first-encounter order,
skipping missing values: pandas `groupby` drops rows whose key is NaN
(its default `dropna=True`). -/
def uniqueKeys (idx : Nat) : List Row → List String
  | [] => []
  | r :: rs =>
    match catOf idx r with
    | none => uniqueKeys idx rs
    | some c => c :: (uniqueKeys idx rs).filter (fun k => k != c)

/-- The rows of the category group keyed by `k`, in their original relative
order (`groupby` preserves the order of rows inside each group). -/
def groupRows (idx : Nat) (rows : List Row) (k : String) : List Row :=
  rows.filter (fun r => catOf idx r == some k)

/-- Embedding of the sheet-name derivation of `convert_csv_to_excel`:
`category.replace('System', 'System Files')` followed by the three
sequential special-case overrides. -/
def sheetNameOf (category : String) : String :=
  let s0 := pyReplaceStr "System" "System Files" category
  let s1 := if s0 = "Core Files" then "Core System Files" else s0
  let s2 := if s1 = "Visual Effects" then "Visual Effects Files" else s1
  let s3 := if s2 = "Content Management" then "Content Management Files" else s2
  s3

/-- The substitution rule alone — `category.replace('System', 'System Files')`
without the special-case overrides.  Used to state which sheet names arise
from the substitution rule and which only from an override. -/
def substOnly (category : String) : String :=
  pyReplaceStr "System" "System Files" category

/-- The fixed lines of the Introduction sheet, with the run date injected as
a parameter (the script uses `pd.Timestamp.now().strftime('%Y-%m-%d')`). -/
def introLines (today : String) : List String :=
  ["",
   "When implementing new features or modifying existing functionality, refer to this catalog to understand which systems to modify.",
   "",
   "The catalog is organized by system categories:",
   "- Core System: Central game infrastructure components",
   "- Ship System: Ship generation and encounter handling",
   "- Family System: Imperial family management",
   "- Consequences System: Decision consequence tracking",
   "- Daily Game Flow: Daily game cycle management",
   "- Content Management: Media and game content",
   "- Visual Effects: Visual enhancement components",
   "",
   "This catalog was updated on " ++ today ++ ".",
   "It includes newly added scripts and recent modifications."]

/-- The generated Introduction sheet: one column titled
`File Organization Strategy` holding the fixed narrative lines. -/
def introSheet (today : String) : Sheet :=
  ⟨"Introduction", ⟨["File Organization Strategy"],
    (introLines today).map (fun s => [some s])⟩⟩

/-- Embedding of `convert_csv_to_excel` from `convert_to_excel.py`, from the
loaded catalog table `df` to the workbook it writes.  `df.groupby('Category')`
raises `KeyError` when the column is absent — modelled as `.error`, produced
before any sheet (and before the `ExcelWriter` creates the output file).
Otherwise the written workbook is the Introduction sheet followed by one
sheet per distinct present category value, in ascending code-point order of
the key (pandas `groupby` default `sort=True`), each renamed by
`sheetNameOf` and keeping all columns and its group's rows. -/
def convert_csv_to_excel (today : String) (df : Table) : Except String (List Sheet) :=
  match df.header.findIdx? (fun h => h == "Category") with
  | none => .error "KeyError: Category"
  | some idx =>
    let keys := (uniqueKeys idx df.rows).insertionSort strLe
    .ok (introSheet today ::
      keys.map (fun k => ⟨sheetNameOf k, ⟨df.header, groupRows idx df.rows k⟩⟩))

/-- Process-level outcome of running `convert_to_excel.py`: the exit status
and the output workbook file (`none` when no file was created).  An
unhandled exception terminates the Python process with status 1. -/
def catalogMain (today : String) (df : Table) : Nat × Option (List Sheet) :=
  match convert_csv_to_excel today df with
  | .error _ => (1, none)
  | .ok sheets => (0, some sheets)

/-- The sheet names of a conversion result, `none` on error. -/
def sheetNamesOf (res : Except String (List Sheet)) : Option (List String) :=
  match res with
  | .error _ => none
  | .ok sheets => some (sheets.map Sheet.name)

/-- The data rows of all category sheets (every output sheet except the
leading Introduction sheet), concatenated in sheet order; `none` on error. -/
def dataRowsOf (res : Except String (List Sheet)) : Option (List Row) :=
  match res with
  | .error _ => none
  | .ok sheets => some (((sheets.drop 1).map (fun s => s.table.rows)).flatten)

/-! ### Concrete inputs used by counterexamples and witnesses -/

/-- A catalog whose categories appear in the order `B`, `A`: first-encounter
order and sorted order differ. -/
def dfBA : Table := ⟨["Category"], [[some "B"], [some "A"]]⟩

/-- A catalog with a single row whose `Category` cell is missing (NaN). -/
def dfNaN : Table := ⟨["Category"], [[none]]⟩

/-- A catalog whose rows carry the Category values of concrete scenario 3 of
the specification, in that row order. -/
def dfScenario3 : Table := ⟨["Category", "File"],
  [[some "Core System", some "a.cs"],
   [some "Ship System", some "b.cs"],
   [some "Visual Effects", some "c.cs"]]⟩

/-- A catalog table without a `Category` column. -/
def dfNoCategory : Table := ⟨["File", "Status"], [[some "a.cs", some "ok"]]⟩

/-- Sheet data for the earlier sheet of the collision scenario. -/
def tFirst : Table := ⟨["H"], [[some "first"]]⟩

/-- Sheet data for the later sheet of the collision scenario. -/
def tSecond : Table := ⟨["H"], [[some "second"]]⟩

/-- Sheet data used for the empty-stem scenario, with one missing cell. -/
def tDashes : Table := ⟨["H"], [[some "x"], [none]]⟩

/-- A one-sheet workbook with one missing cell, used to witness the
`fillna` property. -/
def wbNaN : Workbook := ⟨[⟨"S", ⟨["H"], [[none]]⟩⟩]⟩

/-! ### Helper lemmas -/

/-- Replacing a single-character pattern scans the string character by
character: `pyReplaceFuel` with pattern `[a]` and replacement `[b]` is a
pointwise substitution, whenever the fuel covers the input length. -/
theorem pyReplaceFuel_single (a b : Char) :
    ∀ (n : Nat) (l : List Char), l.length ≤ n →
      pyReplaceFuel [a] [b] n l = l.map (fun c => if c == a then b else c) := by
  intro n
  induction n with
  | zero =>
    intro l h
    have hl : l = [] := List.eq_nil_of_length_eq_zero (Nat.le_zero.mp h)
    subst hl
    rfl
  | succ n ih =>
    intro l h
    cases l with
    | nil => rfl
    | cons c cs =>
      have hcs : cs.length ≤ n := Nat.le_of_succ_le_succ (by simpa using h)
      by_cases hac : a = c
      · subst hac
        simp [pyReplaceFuel, List.isPrefixOf, ih cs hcs]
      · have h1 : (a == c) = false := by simpa using hac
        have h2 : (c == a) = false := by simpa using Ne.symm hac
        simp [pyReplaceFuel, List.isPrefixOf, h1, h2, ih cs hcs]
        rw [if_neg (Ne.symm hac)]

/-- Unfolding of `clean_filename`: its characters are exactly the
space-to-underscore image of the input, filtered down to word characters. -/
theorem clean_filename_data (s : String) :
    (clean_filename s).data =
      (s.data.map (fun c => if c == ' ' then '_' else c)).filter isWordChar := by
  show (pyReplaceFuel (" " : String).data ("_" : String).data s.data.length s.data).filter
      isWordChar = _
  have h1 : (" " : String).data = [' '] := rfl
  have h2 : ("_" : String).data = ['_'] := rfl
  rw [h1, h2, pyReplaceFuel_single ' ' '_' s.data.length s.data (Nat.le_refl _)]

/-- The space character is not a word character. -/
theorem isWordChar_space : isWordChar ' ' = false := by decide

/-- The hyphen is not a word character. -/
theorem isWordChar_hyphen : isWordChar '-' = false := by decide

/-- Total comparison: `charListLe` relates any two strings one way or the
other. -/
theorem charListLe_total : ∀ as bs : List Char,
    charListLe as bs = true ∨ charListLe bs as = true := by
  intro as
  induction as with
  | nil => intro bs; left; rfl
  | cons a as ih =>
    intro bs
    cases bs with
    | nil => right; rfl
    | cons b bs' =>
      by_cases h : a.toNat = b.toNat
      · rcases ih bs' with h1 | h1
        · left; simp only [charListLe, if_pos h, h1]
        · right; simp only [charListLe, if_pos h.symm, h1]
      · rcases Nat.lt_or_ge a.toNat b.toNat with hlt | hge
        · left
          simp only [charListLe, if_neg h, decide_eq_true_eq]
          exact hlt
        · right
          have hne : b.toNat ≠ a.toNat := fun he => h he.symm
          have hlt : b.toNat < a.toNat := lt_of_le_of_ne hge hne
          simp only [charListLe, if_neg hne, decide_eq_true_eq]
          exact hlt

/-- Transitivity of `charListLe`. -/
theorem charListLe_trans : ∀ as bs cs : List Char,
    charListLe as bs = true → charListLe bs cs = true → charListLe as cs = true := by
  intro as
  induction as with
  | nil => intro bs cs _ _; rfl
  | cons a as ih =>
    intro bs cs h1 h2
    cases bs with
    | nil => simp [charListLe] at h1
    | cons b bs' =>
      cases cs with
      | nil => simp [charListLe] at h2
      | cons c cs' =>
        simp only [charListLe] at h1 h2 ⊢
        by_cases hab : a.toNat = b.toNat <;> by_cases hbc : b.toNat = c.toNat
        · rw [if_pos hab] at h1
          rw [if_pos hbc] at h2
          rw [if_pos (hab.trans hbc)]
          exact ih bs' cs' h1 h2
        · rw [if_pos hab] at h1
          rw [if_neg hbc] at h2
          have hlt : b.toNat < c.toNat := of_decide_eq_true h2
          have hac : a.toNat ≠ c.toNat := by omega
          rw [if_neg hac]
          exact decide_eq_true (by omega)
        · rw [if_neg hab] at h1
          rw [if_pos hbc] at h2
          have hlt : a.toNat < b.toNat := of_decide_eq_true h1
          have hac : a.toNat ≠ c.toNat := by omega
          rw [if_neg hac]
          exact decide_eq_true (by omega)
        · rw [if_neg hab] at h1
          rw [if_neg hbc] at h2
          have hl1 : a.toNat < b.toNat := of_decide_eq_true h1
          have hl2 : b.toNat < c.toNat := of_decide_eq_true h2
          have hac : a.toNat ≠ c.toNat := by omega
          rw [if_neg hac]
          exact decide_eq_true (by omega)

instance strLe_isTotal : IsTotal String strLe :=
  ⟨fun a b => charListLe_total a.data b.data⟩

instance strLe_isTrans : IsTrans String strLe :=
  ⟨fun a b c => charListLe_trans a.data b.data c.data⟩

/-- Every category value present in the rows appears among `uniqueKeys`. -/
theorem mem_uniqueKeys_of {idx : Nat} :
    ∀ {rows : List Row} {r : Row}, r ∈ rows →
      ∀ {k : String}, catOf idx r = some k → k ∈ uniqueKeys idx rows := by
  intro rows
  induction rows with
  | nil => intro r h; cases h
  | cons r0 rs ih =>
    intro r hr k hk
    rcases List.mem_cons.mp hr with rfl | hr'
    · unfold uniqueKeys
      rw [hk]
      exact List.mem_cons_self _ _
    · have hmem := ih hr' hk
      unfold uniqueKeys
      cases h0 : catOf idx r0 with
      | none => exact hmem
      | some c =>
        by_cases hkc : k = c
        · subst hkc
          exact List.mem_cons_self _ _
        · exact List.mem_cons_of_mem _
            (List.mem_filter.mpr ⟨hmem, by simpa using hkc⟩)

/-- `uniqueKeys` has no duplicates. -/
theorem uniqueKeys_nodup (idx : Nat) : ∀ rows : List Row, (uniqueKeys idx rows).Nodup := by
  intro rows
  induction rows with
  | nil => exact List.nodup_nil
  | cons r rs ih =>
    unfold uniqueKeys
    cases h0 : catOf idx r with
    | none => exact ih
    | some c =>
      refine List.nodup_cons.mpr ⟨?_, ih.filter _⟩
      intro hc
      have := (List.mem_filter.mp hc).2
      simp at this

/-- Fiber partition: concatenating, over a duplicate-free list of keys that
covers every present category value, the groups of rows keyed by each value
is a permutation of the rows whose category value is present. -/
theorem flatten_groups_perm (idx : Nat) :
    ∀ (keys : List String) (rows : List Row),
      keys.Nodup →
      (∀ r ∈ rows, ∀ k, catOf idx r = some k → k ∈ keys) →
      ((keys.map (fun k => groupRows idx rows k)).flatten).Perm
        (rows.filter (fun r => (catOf idx r).isSome)) := by
  intro keys
  induction keys with
  | nil =>
    intro rows _ hcover
    simp only [List.map_nil, List.flatten_nil]
    have hnil : rows.filter (fun r => (catOf idx r).isSome) = [] := by
      rw [List.filter_eq_nil_iff]
      intro r hr hsome
      obtain ⟨k, hk⟩ := Option.isSome_iff_exists.mp hsome
      exact absurd (hcover r hr k hk) (List.not_mem_nil k)
    rw [hnil]
  | cons k ks ih =>
    intro rows hnd hcover
    simp only [List.map_cons, List.flatten_cons]
    have hnd' := List.nodup_cons.mp hnd
    have hmap : ks.map (fun k' => groupRows idx rows k') =
        ks.map (fun k' => groupRows idx
          (rows.filter (fun r => !(catOf idx r == some k))) k') := by
      apply List.map_congr_left
      intro k' hk'
      have hne : k' ≠ k := fun he => hnd'.1 (he ▸ hk')
      unfold groupRows
      rw [List.filter_filter]
      apply List.filter_congr
      intro r _
      cases hcr : (catOf idx r == some k') with
      | false => simp
      | true =>
        have hceq : catOf idx r = some k' := by simpa using hcr
        simp [hceq, hne]
    have hcover' : ∀ r ∈ rows.filter (fun r => !(catOf idx r == some k)),
        ∀ k0, catOf idx r = some k0 → k0 ∈ ks := by
      intro r hr k0 hk0
      have hrrows := List.mem_filter.mp hr
      rcases List.mem_cons.mp (hcover r hrrows.1 k0 hk0) with rfl | hmem
      · exfalso
        have := hrrows.2
        rw [hk0] at this
        simp at this
      · exact hmem
    have hperm2 := ih (rows.filter (fun r => !(catOf idx r == some k))) hnd'.2 hcover'
    rw [hmap]
    have h1 : (rows.filter (fun r => (catOf idx r).isSome)).filter
        (fun r => catOf idx r == some k) = rows.filter (fun r => catOf idx r == some k) := by
      rw [List.filter_filter]
      apply List.filter_congr
      intro r _
      cases hq : (catOf idx r == some k) with
      | false => simp
      | true =>
        have hceq : catOf idx r = some k := by simpa using hq
        simp [hceq]
    have h2 : (rows.filter (fun r => (catOf idx r).isSome)).filter
        (fun r => !(catOf idx r == some k)) =
        (rows.filter (fun r => !(catOf idx r == some k))).filter
          (fun r => (catOf idx r).isSome) := by
      rw [List.filter_filter, List.filter_filter]
      apply List.filter_congr
      intro r _
      exact Bool.and_comm _ _
    have hsplit := List.filter_append_perm (fun r => catOf idx r == some k)
      (rows.filter (fun r => (catOf idx r).isSome))
    rw [h1, h2] at hsplit
    exact List.Perm.trans (List.Perm.append_left _ hperm2) hsplit

/-! ### Claim theorems -/

/-- C7: the sheet-name sanitization function is idempotent: for every string
`s`, `clean_filename (clean_filename s) = clean_filename s`. -/
theorem C7_clean_filename_idempotent (s : String) :
    clean_filename (clean_filename s) = clean_filename s := by
  have h1 := clean_filename_data s
  have h2 := clean_filename_data (clean_filename s)
  have hall : ∀ c ∈ (clean_filename s).data, isWordChar c = true := by
    intro c hc
    rw [h1] at hc
    exact (List.mem_filter.mp hc).2
  have hmap : (clean_filename s).data.map (fun c => if c == ' ' then '_' else c)
      = (clean_filename s).data := by
    have hid : ∀ c ∈ (clean_filename s).data,
        (fun c => if c == ' ' then '_' else c) c = id c := by
      intro c hc
      have hw := hall c hc
      have hcs : (c == ' ') = false := by
        cases hcc : (c == ' ') with
        | false => rfl
        | true =>
          have : c = ' ' := by simpa using hcc
          rw [this, isWordChar_space] at hw
          cases hw
      simp [hcs]
    rw [List.map_congr_left hid, List.map_id]
  have hfilter : (clean_filename s).data.filter isWordChar = (clean_filename s).data :=
    List.filter_eq_self.mpr hall
  apply String.ext
  rw [h2, hmap, hfilter]

/-- C6 counterexample: the claim states that accented letters are deleted
silently, so it predicts `clean_filename "Café" = "Caf"`; the code keeps the
accented letter, because Python's `\w` is Unicode-aware. -/
theorem C6_accent_kept_cex :
    clean_filename "Café" = "Café" ∧ clean_filename "Café" ≠ "Caf" := by
  refine ⟨by decide, by decide⟩

/-- C6 (amended): `clean_filename` replaces every space with an underscore
and then strips every character that is not a word character (letter —
accented letters included — digit, or underscore); hyphens are deleted
silently, accented letters are kept; sheet `NPC-List` yields stem
`NPCList`. -/
theorem C6_sanitize_word_characters (s : String) :
    (clean_filename s).data =
      (s.data.map (fun c => if c == ' ' then '_' else c)).filter isWordChar ∧
    '-' ∉ (clean_filename s).data ∧
    clean_filename "NPC-List" = "NPCList" ∧
    clean_filename "Main Data" = "Main_Data" ∧
    clean_filename "Café" = "Café" := by
  refine ⟨clean_filename_data s, ?_, by decide, by decide, by decide⟩
  intro hmem
  rw [clean_filename_data s] at hmem
  have hw := (List.mem_filter.mp hmem).2
  rw [isWordChar_hyphen] at hw
  cases hw

/-- C10: a sheet named `---` sanitizes to the empty stem, is still written —
to the file literally named `.csv` — and is counted as a converted sheet;
the conversion succeeds. -/
theorem C10_empty_stem_written :
    clean_filename "---" = "" ∧
    writesOf ⟨[⟨"---", tDashes⟩]⟩ = [(".csv", fillna tDashes)] ∧
    convert_excel_to_csv (.ok ⟨[⟨"---", tDashes⟩]⟩) =
      (true, "Successfully converted 1 sheets to CSV") := by
  refine ⟨by decide, by decide, by decide⟩

/-- C9: every missing cell value is replaced by the empty string before
writing — every cell of every written table is present (never a null
marker) — and the blank/absent distinction is not preserved:
`fillnaCell` sends `some ""` and `none` to the same value. -/
theorem C9_fillna_no_missing (wb : Workbook) :
    (∀ w ∈ writesOf wb, ∀ r ∈ w.2.rows, ∀ c ∈ r, c.isSome = true) ∧
    fillnaCell none = some "" ∧
    fillnaCell (some "") = fillnaCell none := by
  refine ⟨?_, rfl, rfl⟩
  intro w hw r hr c hc
  obtain ⟨s, _, rfl⟩ := List.mem_map.mp hw
  simp only [fillna] at hr
  obtain ⟨r0, _, rfl⟩ := List.mem_map.mp hr
  obtain ⟨c0, _, rfl⟩ := List.mem_map.mp hc
  rfl

/-- C9 witness: instantiating the fillna property at a concrete one-sheet
workbook whose only cell is missing. -/
theorem C9_fillna_no_missing_witness :
    ((some "" : Cell)).isSome = true ∧ fillnaCell none = some "" := by
  have h := C9_fillna_no_missing wbNaN
  exact ⟨h.1 (clean_filename "S" ++ ".csv", fillna ⟨["H"], [[none]]⟩) (by decide)
    [some ""] (by decide) (some "") (by decide), h.2.1⟩

/-- C3: `convert_excel_to_csv` is total over the outcome of its fallible
body: a successful read of the workbook yields `(true, message)` with the
message reporting the sheet count, any raised failure yields
`(false, message)` with the message carrying the error text; the entry
point exits 0 with the message on stdout on success, and exits 1 with the
message on stderr on failure. -/
theorem C3_result_and_exit (input : Except String Workbook) :
    (∀ wb, input = .ok wb →
      convert_excel_to_csv input =
        (true, "Successfully converted " ++ toString wb.sheets.length ++ " sheets to CSV") ∧
      sheetMain input =
        (0, "Successfully converted " ++ toString wb.sheets.length ++ " sheets to CSV",
          Channel.stdout)) ∧
    (∀ e, input = .error e →
      convert_excel_to_csv input = (false, "Error converting Excel to CSV: " ++ e) ∧
      sheetMain input = (1, "Error converting Excel to CSV: " ++ e, Channel.stderr)) := by
  constructor
  · rintro wb rfl
    exact ⟨rfl, rfl⟩
  · rintro e rfl
    exact ⟨rfl, rfl⟩

/-- C3 witness: the success and failure shapes at concrete inputs. -/
theorem C3_result_and_exit_witness :
    convert_excel_to_csv (.ok ⟨[]⟩) = (true, "Successfully converted 0 sheets to CSV") ∧
    sheetMain (.error "boom") = (1, "Error converting Excel to CSV: boom", Channel.stderr) := by
  have h1 := (C3_result_and_exit (.ok ⟨[]⟩)).1 ⟨[]⟩ rfl
  have h2 := (C3_result_and_exit (.error "boom")).2 "boom" rfl
  exact ⟨h1.1.trans (by decide), h2.2.trans (by decide)⟩

/-- C5: if the input catalog has no column named `Category`, the
CatalogMerger run terminates with a non-zero status and no output workbook
file is created: the `KeyError` from the grouping step is raised before the
writer opens the output path. -/
theorem C5_missing_category_fatal (today : String) (df : Table)
    (h : "Category" ∉ df.header) :
    catalogMain today df = (1, none) := by
  have hfind : df.header.findIdx? (fun c => c == "Category") = none := by
    rw [List.findIdx?_eq_none_iff]
    intro x hx
    cases hxc : (x == "Category") with
    | false => rfl
    | true =>
      have : x = "Category" := by simpa using hxc
      exact absurd (this ▸ hx) h
  unfold catalogMain convert_csv_to_excel
  rw [hfind]

/-- C5 witness: a concrete catalog without a `Category` column. -/
theorem C5_missing_category_fatal_witness :
    ("Category" ∉ dfNoCategory.header) ∧
    catalogMain "2026-10-12" dfNoCategory = (1, none) :=
  ⟨by decide, C5_missing_category_fatal "2026-10-12" dfNoCategory (by decide)⟩

/-- The final file for a name written by the last write in the sequence is
that write's table. -/
theorem finalFile_append_last (ws : List (String × Table)) (fname : String) (t : Table) :
    finalFile (ws ++ [(fname, t)]) fname = some t := by
  unfold finalFile
  rw [List.filter_append]
  simp

/-- C8: when a later sheet `b` sanitizes to the same file stem as an earlier
sheet `a`, the later write wins: the output folder holds `b`'s (filled)
data under that stem, while the run succeeds and reports the full sheet
count. -/
theorem C8_collision_overwrites (a b : Sheet) (pre mid : List Sheet)
    (hab : a.name ≠ b.name)
    (hstem : clean_filename a.name = clean_filename b.name) :
    2 ≤ ((writesOf ⟨pre ++ a :: (mid ++ [b])⟩).filter
          (fun w => w.1 == clean_filename b.name ++ ".csv")).length ∧
    finalFile (writesOf ⟨pre ++ a :: (mid ++ [b])⟩) (clean_filename b.name ++ ".csv")
      = some (fillna b.table) ∧
    convert_excel_to_csv (.ok ⟨pre ++ a :: (mid ++ [b])⟩) =
      (true, "Successfully converted " ++ toString (pre.length + mid.length + 2) ++
        " sheets to CSV") := by
  have hw : writesOf ⟨pre ++ a :: (mid ++ [b])⟩ =
      (pre.map (fun s => (clean_filename s.name ++ ".csv", fillna s.table)) ++
        (clean_filename a.name ++ ".csv", fillna a.table) ::
          mid.map (fun s => (clean_filename s.name ++ ".csv", fillna s.table))) ++
        [(clean_filename b.name ++ ".csv", fillna b.table)] := by
    simp [writesOf, List.map_append]
  refine ⟨?_, ?_, ?_⟩
  · rw [hw, List.filter_append, List.filter_append]
    have hqa : ((clean_filename a.name ++ ".csv", fillna a.table).1 ==
        clean_filename b.name ++ ".csv") = true := by
      simp [hstem]
    have hqb : ((clean_filename b.name ++ ".csv", fillna b.table).1 ==
        clean_filename b.name ++ ".csv") = true := by
      simp
    simp only [List.filter_cons, List.filter_singleton, hqa, hqb, if_true,
      List.length_append, List.length_cons]
    omega
  · rw [hw, finalFile_append_last]
  · have hlen : (Workbook.mk (pre ++ a :: (mid ++ [b]))).sheets.length =
        pre.length + mid.length + 2 := by
      simp [List.length_append, List.length_cons]
      omega
    simp only [convert_excel_to_csv]
    rw [hlen]

/-- C8 witness: sheets `A B` and `A_B` both sanitize to stem `A_B`; the
single final file holds the second sheet's data and the run reports two
sheets. -/
theorem C8_collision_overwrites_witness :
    2 ≤ ((writesOf ⟨[⟨"A B", tFirst⟩, ⟨"A_B", tSecond⟩]⟩).filter
          (fun w => w.1 == clean_filename "A_B" ++ ".csv")).length ∧
    finalFile (writesOf ⟨[⟨"A B", tFirst⟩, ⟨"A_B", tSecond⟩]⟩)
      (clean_filename "A_B" ++ ".csv") = some (fillna tSecond) ∧
    convert_excel_to_csv (.ok ⟨[⟨"A B", tFirst⟩, ⟨"A_B", tSecond⟩]⟩) =
      (true, "Successfully converted 2 sheets to CSV") := by
  have h := C8_collision_overwrites ⟨"A B", tFirst⟩ ⟨"A_B", tSecond⟩ [] []
    (by decide) (by decide)
  exact ⟨h.1, h.2.1, h.2.2.trans (by decide)⟩

/-- C1 counterexample: on a catalog whose categories are first encountered
in the order `B`, `A`, the claim predicts sheets `Introduction, B, A`; the
code emits `Introduction, A, B`, because pandas `groupby` iterates keys in
sorted order. -/
theorem C1_first_encounter_order_cex :
    sheetNamesOf (convert_csv_to_excel "2026-10-12" dfBA) =
      some ["Introduction", "A", "B"] ∧
    "Introduction" :: (uniqueKeys 0 dfBA.rows).map sheetNameOf =
      ["Introduction", "B", "A"] ∧
    sheetNamesOf (convert_csv_to_excel "2026-10-12" dfBA) ≠
      some ("Introduction" :: (uniqueKeys 0 dfBA.rows).map sheetNameOf) := by
  refine ⟨by decide, by decide, by decide⟩

/-- C1 (amended): the output workbook has the Introduction sheet first,
followed by one sheet per category group; the category sheets appear in
ascending code-point order of the category value (pandas `groupby` sorts
its keys), not in first-encounter order. -/
theorem C1_sorted_sheet_order (today : String) (df : Table) (idx : Nat)
    (h : df.header.findIdx? (fun c => c == "Category") = some idx) :
    ∃ keys, convert_csv_to_excel today df = .ok (introSheet today ::
        keys.map (fun k => ⟨sheetNameOf k, ⟨df.header, groupRows idx df.rows k⟩⟩)) ∧
      List.Sorted strLe keys ∧ keys.Perm (uniqueKeys idx df.rows) := by
  refine ⟨(uniqueKeys idx df.rows).insertionSort strLe, ?_, ?_, ?_⟩
  · unfold convert_csv_to_excel
    rw [h]
  · exact List.sorted_insertionSort strLe _
  · exact List.perm_insertionSort strLe _

/-- C1 witness: the sorted-order theorem instantiated at the two-category
catalog. -/
theorem C1_sorted_sheet_order_witness :
    dfBA.header.findIdx? (fun c => c == "Category") = some 0 ∧
    (∃ keys, convert_csv_to_excel "2026-10-12" dfBA = .ok (introSheet "2026-10-12" ::
        keys.map (fun k => ⟨sheetNameOf k, ⟨dfBA.header, groupRows 0 dfBA.rows k⟩⟩)) ∧
      List.Sorted strLe keys ∧ keys.Perm (uniqueKeys 0 dfBA.rows)) :=
  ⟨by decide, C1_sorted_sheet_order "2026-10-12" dfBA 0 (by decide)⟩

/-- C2 counterexample: on a catalog whose single row has a missing
`Category` cell, the category sheets together hold no row at all, while the
input holds one row: the row is dropped, so the union of output rows is not
a permutation of the input rows. -/
theorem C2_row_dropped_cex :
    dataRowsOf (convert_csv_to_excel "2026-10-12" dfNaN) = some [] ∧
    dfNaN.rows = [[none]] ∧
    ¬ (([] : List Row).Perm dfNaN.rows) := by
  refine ⟨by decide, rfl, ?_⟩
  intro hp
  have := hp.length_eq
  simp [dfNaN] at this

/-- C2 (amended): the rows of the category sheets, taken together, are a
permutation of exactly those input rows whose `Category` value is present;
rows with a missing `Category` cell are dropped (pandas `groupby` drops NaN
keys); within each category sheet the rows keep their relative input order
(each sheet's row list is a sublist of the input row list). -/
theorem C2_partition_preserves_present_rows (today : String) (df : Table) (idx : Nat)
    (h : df.header.findIdx? (fun c => c == "Category") = some idx) :
    ∃ sheets, convert_csv_to_excel today df = .ok sheets ∧
      (((sheets.drop 1).map (fun s => s.table.rows)).flatten).Perm
        (df.rows.filter (fun r => (catOf idx r).isSome)) ∧
      ∀ s ∈ sheets.drop 1, s.table.rows.Sublist df.rows := by
  have hconv : convert_csv_to_excel today df = .ok (introSheet today ::
      ((uniqueKeys idx df.rows).insertionSort strLe).map
        (fun k => ⟨sheetNameOf k, ⟨df.header, groupRows idx df.rows k⟩⟩)) := by
    unfold convert_csv_to_excel
    rw [h]
  refine ⟨_, hconv, ?_, ?_⟩
  · rw [List.drop_one, List.tail_cons, List.map_map]
    have hnd : ((uniqueKeys idx df.rows).insertionSort strLe).Nodup :=
      (List.perm_insertionSort strLe _).symm.nodup (uniqueKeys_nodup idx df.rows)
    have hcover : ∀ r ∈ df.rows, ∀ k, catOf idx r = some k →
        k ∈ (uniqueKeys idx df.rows).insertionSort strLe := by
      intro r hr k hk
      exact (List.perm_insertionSort strLe _).symm.subset (mem_uniqueKeys_of hr hk)
    exact flatten_groups_perm idx _ df.rows hnd hcover
  · intro s hs
    rw [List.drop_one, List.tail_cons] at hs
    obtain ⟨k, _, rfl⟩ := List.mem_map.mp hs
    exact List.filter_sublist df.rows

/-- C2 witness: the partition theorem instantiated at the catalog whose one
row has a missing category — the present-row multiset is empty. -/
theorem C2_partition_preserves_present_rows_witness :
    dfNaN.header.findIdx? (fun c => c == "Category") = some 0 ∧
    (∃ sheets, convert_csv_to_excel "2026-10-12" dfNaN = .ok sheets ∧
      (((sheets.drop 1).map (fun s => s.table.rows)).flatten).Perm
        (dfNaN.rows.filter (fun r => (catOf 0 r).isSome)) ∧
      ∀ s ∈ sheets.drop 1, s.table.rows.Sublist dfNaN.rows) :=
  ⟨by decide, C2_partition_preserves_present_rows "2026-10-12" dfNaN 0 (by decide)⟩

/-- C4 counterexample: the claim requires every sheet name of scenario 3 to
arise from the substitution rule alone, but `Visual Effects Files` only
arises from the special-case override — the substitution rule leaves
`Visual Effects` unchanged. -/
theorem C4_substitution_only_cex :
    ¬ (sheetNamesOf (convert_csv_to_excel "2026-10-12" dfScenario3) =
        some ["Introduction", "Core System Files", "Ship System Files",
          "Visual Effects Files"] ∧
      ∀ k ∈ uniqueKeys 0 dfScenario3.rows, sheetNameOf k = substOnly k) := by
  intro hclaim
  have h := hclaim.2 "Visual Effects" (by decide)
  exact absurd h (by decide)

/-- C4 (amended): on the scenario-3 catalog the output sheets are, in
order, `Introduction`, `Core System Files`, `Ship System Files`,
`Visual Effects Files`; the first two category names arise per the
substitution rule, while `Visual Effects Files` arises from the
special-case override. -/
theorem C4_scenario3_sheet_order :
    sheetNamesOf (convert_csv_to_excel "2026-10-12" dfScenario3) =
      some ["Introduction", "Core System Files", "Ship System Files",
        "Visual Effects Files"] ∧
    sheetNameOf "Core System" = substOnly "Core System" ∧
    sheetNameOf "Ship System" = substOnly "Ship System" ∧
    sheetNameOf "Visual Effects" ≠ substOnly "Visual Effects" ∧
    sheetNameOf "Visual Effects" = "Visual Effects Files" := by
  refine ⟨by decide, by decide, by decide, by decide, by decide⟩

end Starkiller
